import Mathlib

/-!
Verification of the chrome-gemini-sync native host relay.

Shallow embedding of the Go sources:
  - the Native Messaging framed codec (native_messaging.go: `Message`,
    `MaxMessageSize`, `ReadNativeMessage`, `WriteNativeMessage`);
  - the request correlator (browser_bridge.go: `BrowserBridge.Request`,
    `BrowserBridge.HandleResponse`, `RequestTimeout`);
  - the PTY session manager (pty_manager.go);
  - the Unix socket relay server (socket_server.go);
  - the MCP JSON-RPC tool facade (mcp_server.go).

Byte streams are `List Nat` (each entry one byte).  Go's standard-library
`encoding/json` marshalling of the `Message` struct is modelled by a concrete
injective byte codec (`jsonEnc` / `jsonDec`): the relay never inspects the
payload bytes between marshal and unmarshal, so any injective serialisation
with a computable inverse models it faithfully for the framing layer, whose
length arithmetic and size checks are translated exactly from the source.
Goroutine effects (channel sends, socket reads) are modelled by explicit
state passing and oracle parameters recording what the environment did.
-/

namespace ChromeGeminiSync

/-! ## Framed Native Messaging codec (native_messaging.go) -/

/-- `MaxMessageSize = 1024 * 1024` from native_messaging.go. -/
def MaxMessageSize : Nat := 1024 * 1024

/-- The Native Messaging `Message` struct.  The Go `interface{}` fields
(`Data`, `Cols`, `Rows`, `RequestId`, `Params`) are modelled at the types the
relay actually traffics in: strings for terminal data, request ids and opaque
params, integers for the resize geometry; `omitempty` absence is `none`. -/
structure Message where
  type : String
  data : Option String
  cols : Option Int
  rows : Option Int
  requestId : Option String
  action : String
  params : Option String
  success : Bool
  error : String
deriving Repr, DecidableEq

/-- Unary length encoding used by the model JSON codec (self-delimiting). -/
def encNat : Nat → List Nat
  | 0 => [0]
  | n + 1 => 1 :: encNat n

/-- Inverse of `encNat`, returning the decoded value and the rest of the
stream. -/
def decNat : List Nat → Option (Nat × List Nat)
  | 0 :: rest => some (0, rest)
  | 1 :: rest =>
      match decNat rest with
      | some (n, r) => some (n + 1, r)
      | none => none
  | _ => none

/-- Model serialisation of a string: its length followed by its characters. -/
def encStr (s : String) : List Nat :=
  encNat s.data.length ++ s.data.map Char.toNat

/-- Inverse of `encStr`. -/
def decStr (l : List Nat) : Option (String × List Nat) :=
  match decNat l with
  | some (n, rest) =>
      if n ≤ rest.length then
        some (String.mk ((rest.take n).map Char.ofNat), rest.drop n)
      else none
  | none => none

/-- Model serialisation of an optional string. -/
def encOptStr : Option String → List Nat
  | none => [0]
  | some s => 1 :: encStr s

/-- Inverse of `encOptStr`. -/
def decOptStr : List Nat → Option (Option String × List Nat)
  | 0 :: rest => some (none, rest)
  | 1 :: rest =>
      match decStr rest with
      | some (s, r) => some (some s, r)
      | none => none
  | _ => none

/-- Model serialisation of an integer: sign byte then magnitude. -/
def encInt (i : Int) : List Nat :=
  (if 0 ≤ i then 0 else 1) :: encNat i.natAbs

/-- Inverse of `encInt`. -/
def decInt (l : List Nat) : Option (Int × List Nat) :=
  match l with
  | 0 :: rest =>
      match decNat rest with
      | some (n, r) => some ((n : Int), r)
      | none => none
  | 1 :: rest =>
      match decNat rest with
      | some (n, r) => some (-(n : Int), r)
      | none => none
  | _ => none

/-- Model serialisation of an optional integer. -/
def encOptInt : Option Int → List Nat
  | none => [0]
  | some i => 1 :: encInt i

/-- Inverse of `encOptInt`. -/
def decOptInt : List Nat → Option (Option Int × List Nat)
  | 0 :: rest => some (none, rest)
  | 1 :: rest =>
      match decInt rest with
      | some (i, r) => some (some i, r)
      | none => none
  | _ => none

/-- Model serialisation of a boolean. -/
def encBool (b : Bool) : List Nat := [if b then 1 else 0]

/-- Inverse of `encBool`. -/
def decBool : List Nat → Option (Bool × List Nat)
  | 0 :: rest => some (false, rest)
  | 1 :: rest => some (true, rest)
  | _ => none

/-- Model of Go `json.Marshal` on `Message`: an injective, self-delimiting
serialisation of the nine struct fields in declaration order. -/
def jsonEnc (m : Message) : List Nat :=
  encStr m.type ++ (encOptStr m.data ++ (encOptInt m.cols ++ (encOptInt m.rows ++
    (encOptStr m.requestId ++ (encStr m.action ++ (encOptStr m.params ++
      (encBool m.success ++ encStr m.error)))))))

/-- Model of Go `json.Unmarshal` into `Message`: the inverse of `jsonEnc`,
failing on any stream that is not exactly one serialised `Message`. -/
def jsonDec (l : List Nat) : Option Message := do
  let (ty, l) ← decStr l
  let (da, l) ← decOptStr l
  let (co, l) ← decOptInt l
  let (ro, l) ← decOptInt l
  let (ri, l) ← decOptStr l
  let (ac, l) ← decStr l
  let (pa, l) ← decOptStr l
  let (su, l) ← decBool l
  let (er, l) ← decStr l
  match l with
  | [] => some ⟨ty, da, co, ro, ri, ac, pa, su, er⟩
  | _ => none

/-- 4-byte little-endian length prefix, as written by Go
`binary.Write(w, binary.LittleEndian, uint32)`. -/
def u32le (n : Nat) : List Nat :=
  [n % 256, n / 256 % 256, n / 65536 % 256, n / 16777216 % 256]

/-- The length a 4-byte little-endian prefix declares, as read by Go
`binary.Read(r, binary.LittleEndian, &length)`. -/
def u32leVal (b0 b1 b2 b3 : Nat) : Nat :=
  b0 + 256 * b1 + 65536 * b2 + 16777216 * b3

/-- `WriteNativeMessage` from native_messaging.go: marshal, reject payloads
over `MaxMessageSize` before writing anything, else emit the 4-byte
little-endian length prefix followed by the payload.  `none` models the
error return (in which case the source has written no bytes). -/
def WriteNativeMessage (msg : Message) : Option (List Nat) :=
  let msgBytes := jsonEnc msg
  if msgBytes.length > MaxMessageSize then none
  else some (u32le msgBytes.length ++ msgBytes)

/-- `ReadNativeMessage` from native_messaging.go: read the 4-byte prefix,
reject declared lengths over `MaxMessageSize` before allocating or reading
the payload, else read exactly that many payload bytes and unmarshal them.
Returns the message and the unconsumed rest of the stream; `none` models the
error return. -/
def ReadNativeMessage (stream : List Nat) : Option (Message × List Nat) :=
  match stream with
  | b0 :: b1 :: b2 :: b3 :: rest =>
      if u32leVal b0 b1 b2 b3 > MaxMessageSize then none
      else if rest.length < u32leVal b0 b1 b2 b3 then none
      else
        match jsonDec (rest.take (u32leVal b0 b1 b2 b3)) with
        | some m => some (m, rest.drop (u32leVal b0 b1 b2 b3))
        | none => none
  | _ => none

/-- A small concrete terminal-output frame, used to witness the round-trip. -/
def msgTermOut : Message :=
  ⟨"terminal:output", some "hi", none, none, none, "", none, false, ""⟩

/-- A message whose model encoding exceeds `MaxMessageSize` (its `error`
field holds 1,048,576 characters), used to witness the oversize write
rejection. -/
def msgOversize : Message :=
  ⟨"", none, none, none, none, "", none, false, String.mk (List.replicate 1048576 'a')⟩

/-! ## Request correlator (browser_bridge.go) -/

/-- One nanosecond-denominated second, Go `time.Second`. -/
def timeSecond : Nat := 1000000000

/-- `RequestTimeout = 30 * time.Second` from browser_bridge.go. -/
def RequestTimeout : Nat := 30 * timeSecond

/-- A single-slot response channel (`make(chan *Message, 1)`): `none` while
empty, `some m` once a response has been buffered. -/
abbrev RespChan := Option Message

/-- The correlator's pending table `pending map[string]chan *Message`,
modelled as an association list with Go map semantics (at most one live
binding per key; `tableInsert` overwrites). -/
abbrev PendingTable := List (String × RespChan)

/-- Go map lookup `b.pending[requestId]`. -/
def tableLookup : PendingTable → String → Option RespChan
  | [], _ => none
  | (k, v) :: rest, key => if k = key then some v else tableLookup rest key

/-- Go map assignment `b.pending[requestId] = respChan`. -/
def tableInsert : PendingTable → String → RespChan → PendingTable
  | [], key, v => [(key, v)]
  | (k, w) :: rest, key, v =>
      if k = key then (key, v) :: rest else (k, w) :: tableInsert rest key v

/-- Go map deletion `delete(b.pending, requestId)`. -/
def tableErase : PendingTable → String → PendingTable
  | [], _ => []
  | (k, w) :: rest, key =>
      if k = key then tableErase rest key else (k, w) :: tableErase rest key

/-- `BrowserBridge.HandleResponse`: look the request id up in the pending
table; if a pending entry exists and its single-slot channel is empty,
buffer the message there (the select's send case); if the entry's channel is
already full, drop the message (the select's `default` case, "Response
channel full"); if no entry exists, drop it ("No pending request").  Returns
the new table and whether the message was delivered to a waiting call. -/
def HandleResponse (pending : PendingTable) (requestId : String) (msg : Message) :
    PendingTable × Bool :=
  match tableLookup pending requestId with
  | some none => (tableInsert pending requestId (some msg), true)
  | some (some _) => (pending, false)
  | none => (pending, false)

/-- What `BrowserBridge.Request` returns. -/
inductive ReqOutcome where
  | ok (resp : Message)
  | writeError
  | timeout
deriving Repr, DecidableEq

/-- Which arm of `Request`'s select resolved: a buffered response was
received from the slot, or the 30-second timer fired first. -/
inductive WaitEvent where
  | response (msg : Message)
  | timerFired
deriving Repr, DecidableEq

/-- `BrowserBridge.Request`, registration phase: the single-slot channel is
created empty and inserted under `requestId` *before* the request frame is
written to the framed channel. -/
def requestRegister (pending : PendingTable) (requestId : String) : PendingTable :=
  tableInsert pending requestId none

/-- `BrowserBridge.Request`, completion phase, taking the pending table as it
stands when the call resumes: if `WriteNativeMessage` failed (`writeOk =
false`) the call returns the write error; otherwise it returns the response
or the timeout error according to which select arm fired.  On every path the
deferred `delete(b.pending, requestId)` runs before the call returns. -/
def requestFinish (pending : PendingTable) (requestId : String)
    (writeOk : Bool) (ev : WaitEvent) : ReqOutcome × PendingTable :=
  if writeOk = false then (.writeError, tableErase pending requestId)
  else
    match ev with
    | .response m => (.ok m, tableErase pending requestId)
    | .timerFired => (.timeout, tableErase pending requestId)

/-- A concrete pending table with two in-flight calls, for witnesses. -/
def tableTwoCalls : PendingTable := [("id-a", none), ("id-b", none)]

/-- A concrete browser response message, for witnesses. -/
def msgRespA : Message :=
  ⟨"browser:response", none, none, none, some "id-a", "", none, true, ""⟩

/-! ## PTY session (pty_manager.go) -/

/-- The PTY output channel's buffer capacity: `make(chan string, 100)` in
`NewPTYManager`. -/
def outputChanCapacity : Nat := 100

/-- The PTY read buffer size: `buf := make([]byte, 4096)` in `readOutput`. -/
def ptyReadBufSize : Nat := 4096

/-- The non-blocking send in `readOutput`'s select: append the chunk if the
buffered channel has room, otherwise hit the `default` case and drop the
newly read (newest) chunk, leaving the buffered ones untouched. -/
def offerOutput (queue : List String) (chunk : String) : List String :=
  if queue.length < outputChanCapacity then queue ++ [chunk] else queue

/-- The `readOutput` loop over a sequence of successful PTY reads with no
intervening consumer: each chunk is offered to the bounded channel in turn;
the loop never blocks on the channel, and a read error or EOF ends it (here:
the list of reads ends). -/
def readOutputLoop (queue : List String) (chunks : List String) : List String :=
  chunks.foldl offerOutput queue

/-- The Go `*os.File` for the PTY master: it stays non-nil after `Close` and
subsequent writes or ioctls on it fail. -/
structure PtyFile where
  closed : Bool
deriving Repr, DecidableEq

/-- The `PTYManager` state observable through its mutex: the PTY handle
(`nil` until `Start`), the `running` flag, and whether the output channel
`outputCh` has been closed (no statement in pty_manager.go ever closes it;
only `closeChan` is closed, by the process-wait goroutine). -/
structure PTYManager where
  ptmx : Option PtyFile
  running : Bool
  outputChClosed : Bool
deriving Repr, DecidableEq

/-- `NewPTYManager`. -/
def PTYManager.new : PTYManager := ⟨none, false, false⟩

/-- `Start` with a successful spawn: installs an open PTY handle and sets
`running`. -/
def PTYManager.start (p : PTYManager) : PTYManager :=
  ⟨some ⟨false⟩, true, p.outputChClosed⟩

/-- Result of one `Write`/`Resize` call: Go `nil` error versus the error a
closed descriptor produces. -/
inductive PtyIOResult where
  | ok
  | errClosed
deriving Repr, DecidableEq

/-- `Write`: silently succeeds when no PTY was ever started (`p.ptmx == nil`),
otherwise writes to the handle, which fails iff the handle has been closed. -/
def PTYManager.write (p : PTYManager) : PtyIOResult :=
  match p.ptmx with
  | none => .ok
  | some f => if f.closed then .errClosed else .ok

/-- `Resize`: same guard as `Write`; `pty.Setsize` on a closed descriptor
fails. -/
def PTYManager.resize (p : PTYManager) : PtyIOResult :=
  match p.ptmx with
  | none => .ok
  | some f => if f.closed then .errClosed else .ok

/-- `Stop`: closes the PTY handle if one exists (it stays non-nil), kills the
child, and clears `running`; it does not touch `outputCh`. -/
def PTYManager.stop (p : PTYManager) : PTYManager :=
  ⟨match p.ptmx with
   | none => none
   | some _ => some ⟨true⟩,
   false, p.outputChClosed⟩

/-- A queue of 100 chunks, saturating the output channel, for witnesses. -/
def fullQueue : List String := List.replicate 100 "chunk"

/-! ## JSON values (Go `interface{}` holding decoded JSON) -/

/-- A decoded JSON value, the model of Go `interface{}` fields populated by
`encoding/json` (`map[string]interface{}` is `obj`, `[]interface{}` is
`arr`; numbers are modelled at integer granularity, the only way the relay
uses them). -/
inductive JVal where
  | null
  | bool (b : Bool)
  | num (n : Int)
  | str (s : String)
  | arr (elems : List JVal)
  | obj (fields : List (String × JVal))
deriving Repr

/-- Lookup in a decoded JSON object, Go `dataMap["key"]`. -/
def jsonLookup (fields : List (String × JVal)) (key : String) : Option JVal :=
  match fields with
  | [] => none
  | (k, v) :: rest => if k = key then some v else jsonLookup rest key

/-- Model of Go `json.MarshalIndent` output at the granularity the claims
need: a canonical rendering of the JSON value. -/
def jvalText : JVal → String
  | .null => "null"
  | .bool b => if b then "true" else "false"
  | .num n => toString n
  | .str s => "\"" ++ s ++ "\""
  | .arr l => "[" ++ String.intercalate "," (l.attach.map (fun x => jvalText x.1)) ++ "]"
  | .obj f => "\x7b" ++ String.intercalate ","
      (f.attach.map (fun kv => "\"" ++ kv.1.1 ++ "\":" ++ jvalText kv.1.2)) ++ "\x7d"
termination_by v => sizeOf v
decreasing_by
  · simp_wf
    have h1 := List.sizeOf_lt_of_mem x.2
    omega
  · simp_wf
    have h1 := List.sizeOf_lt_of_mem kv.2
    have h2 : sizeOf kv.1.2 < sizeOf kv.1 := by
      obtain ⟨⟨a, b⟩, hm⟩ := kv
      simp
    omega

/-! ## Unix socket relay server (socket_server.go) -/

/-- The line-protocol request envelope `SocketMessage` (`Params` is decoded
or to-be-encoded JSON). -/
structure SocketMessage where
  type : String
  requestId : String
  action : String
  params : JVal
deriving Repr

/-- The line-protocol response envelope `SocketResponse` (`Data` is decoded
JSON on the facade side). -/
structure SocketResponse where
  type : String
  requestId : String
  success : Bool
  data : JVal
  error : String
deriving Repr

/-- Lift an optional opaque payload into a JSON value. -/
def optStrToJVal : Option String → JVal
  | none => .null
  | some s => .str s

/-- `SocketServer.handleRequest`: forward the envelope to
`bridge.Request(msg.Action, msg.Params, msg.RequestId)` (`outcome` is what
that call returned) and shape the one-line response: on error, `success =
false` with the error text; on success, the bridge message's `success`,
`data` and `error` fields under the caller's request id. -/
def socketHandleRequest (msg : SocketMessage) (outcome : ReqOutcome) : SocketResponse :=
  match outcome with
  | .ok resp =>
      ⟨"browser:response", msg.requestId, resp.success, optStrToJVal resp.data, resp.error⟩
  | .writeError =>
      ⟨"browser:response", msg.requestId, false, .null, "failed to send request"⟩
  | .timeout =>
      ⟨"browser:response", msg.requestId, false, .null, "request timeout after 30s"⟩

/-- What one `reader.ReadBytes('\n')` call on a client connection produced,
with Go `json.Unmarshal`'s verdict on the line made explicit: the read
failed, or the line did not decode, or it decoded to a request envelope. -/
inductive ClientReadEvent where
  | readFailure
  | undecodableLine
  | request (msg : SocketMessage)
deriving Repr

/-- Observable outcome of one client handler: the responses written back on
that connection, and whether the handler returned (running its deferred
cleanup, which closes the connection and drops it from `s.clients`). -/
structure ClientResult where
  responses : List SocketResponse
  closed : Bool
deriving Repr

/-- `SocketServer.handleClient` over the sequence of its reads: a read
failure makes the handler return (connection closed, later events never
read); an undecodable line is logged and *skipped* (`continue`); a decoded
request is forwarded through the bridge and answered with one line.
`outcomes` records what `bridge.Request` returned for each envelope. -/
def handleClient (outcomes : SocketMessage → ReqOutcome) :
    List ClientReadEvent → ClientResult
  | [] => ⟨[], false⟩
  | .readFailure :: _ => ⟨[], true⟩
  | .undecodableLine :: rest => handleClient outcomes rest
  | .request m :: rest =>
      let r := handleClient outcomes rest
      ⟨socketHandleRequest m (outcomes m) :: r.responses, r.closed⟩

/-- The server's concurrent handlers: one per accepted connection, sharing
no per-connection state — each connection's result is a function of its own
event sequence alone. -/
def serverHandleConnections (outcomes : SocketMessage → ReqOutcome)
    (conns : List (List ClientReadEvent)) : List ClientResult :=
  conns.map (handleClient outcomes)

/-- The accept loop's control state: `running` (the loop's condition, set by
`Start`, cleared only by `Stop`) and the tracked client set `s.clients`. -/
structure SocketServer where
  running : Bool
  clients : List Nat
deriving Repr, DecidableEq

/-- A client handler terminating: its deferred cleanup deletes that
connection from `s.clients` and closes it; nothing else in the server is
touched. -/
def connTerminate (s : SocketServer) (cid : Nat) : SocketServer :=
  ⟨s.running, s.clients.filter (fun c => c != cid)⟩

/-- A bridge oracle that times every request out, for witnesses. -/
def oracleTimeout : SocketMessage → ReqOutcome := fun _ => .timeout

/-- A concrete request envelope, for witnesses. -/
def sockMsgGetUrl : SocketMessage := ⟨"browser:request", "rid-1", "getUrl", .null⟩

/-- A server with two tracked connections, for witnesses. -/
def serverTwoClients : SocketServer := ⟨true, [1, 2]⟩

/-! ## MCP JSON-RPC tool facade (mcp_server.go) -/

/-- `JSONRPCRequest`: `ID` is decoded JSON (`interface{}`); `Params` is the
raw params document, `none` when the field is absent. -/
structure JSONRPCRequest where
  jsonrpc : String
  method : String
  params : Option JVal
  id : JVal
deriving Repr

/-- `JSONRPCError`. -/
structure JSONRPCError where
  code : Int
  message : String
deriving Repr, DecidableEq

/-- `JSONRPCResponse`. -/
structure JSONRPCResponse where
  jsonrpc : String
  result : Option JVal
  error : Option JSONRPCError
  id : JVal
deriving Repr

/-- `MCPServer.errorResponse`. -/
def errorResponse (idv : JVal) (code : Int) (message : String) : JSONRPCResponse :=
  ⟨"2.0", none, some ⟨code, message⟩, idv⟩

/-- `MCPServer.handleInitialize`. -/
def handleInitialize (req : JSONRPCRequest) : JSONRPCResponse :=
  ⟨"2.0",
   some (.obj [
     ("protocolVersion", .str "2024-11-05"),
     ("serverInfo", .obj [
       ("name", .str "chrome-browser-context"),
       ("version", .str "1.0.0")]),
     ("capabilities", .obj [("tools", .obj [])])]),
   none, req.id⟩

/-- The static tool catalogue from `handleToolsList`, transcribed descriptor
by descriptor. -/
def toolsCatalogue : List JVal := [
  .obj [
    ("name", .str "get_browser_dom"),
    ("description", .str "Get the DOM content of the active browser tab. Returns HTML, URL, and title."),
    ("inputSchema", .obj [
      ("type", .str "object"),
      ("properties", .obj [
        ("selector", .obj [
          ("type", .str "string"),
          ("description", .str "CSS selector to get specific element (default: body)")])])])],
  .obj [
    ("name", .str "get_browser_url"),
    ("description", .str "Get the URL and title of the active browser tab."),
    ("inputSchema", .obj [
      ("type", .str "object"),
      ("properties", .obj [])])],
  .obj [
    ("name", .str "get_browser_selection"),
    ("description", .str "Get the currently selected/highlighted text in the active browser tab."),
    ("inputSchema", .obj [
      ("type", .str "object"),
      ("properties", .obj [])])],
  .obj [
    ("name", .str "capture_browser_screenshot"),
    ("description", .str "Capture a screenshot of the active browser tab. Returns base64-encoded PNG."),
    ("inputSchema", .obj [
      ("type", .str "object"),
      ("properties", .obj [])])],
  .obj [
    ("name", .str "execute_browser_script"),
    ("description", .str "Execute JavaScript in the active browser tab context."),
    ("inputSchema", .obj [
      ("type", .str "object"),
      ("properties", .obj [
        ("script", .obj [
          ("type", .str "string"),
          ("description", .str "JavaScript code to execute")])]),
      ("required", .arr [.str "script"])])],
  .obj [
    ("name", .str "modify_dom"),
    ("description", .str "Modify DOM elements. Actions: setHTML, setText, setAttribute, addClass, removeClass, remove, insertBefore, insertAfter."),
    ("inputSchema", .obj [
      ("type", .str "object"),
      ("properties", .obj [
        ("selector", .obj [
          ("type", .str "string"),
          ("description", .str "CSS selector to find elements")]),
        ("action", .obj [
          ("type", .str "string"),
          ("description", .str "Action to perform"),
          ("enum", .arr [.str "setHTML", .str "setText", .str "setAttribute",
            .str "removeAttribute", .str "addClass", .str "removeClass",
            .str "remove", .str "insertBefore", .str "insertAfter"])]),
        ("value", .obj [
          ("type", .str "string"),
          ("description", .str "Value for the action")]),
        ("attributeName", .obj [
          ("type", .str "string"),
          ("description", .str "Attribute name for setAttribute/removeAttribute")]),
        ("all", .obj [
          ("type", .str "boolean"),
          ("description", .str "Apply to all matching elements (default: first only)")])]),
      ("required", .arr [.str "selector", .str "action"])])],
  .obj [
    ("name", .str "get_console_logs"),
    ("description", .str "Get console logs (errors, warnings, info) from the active tab. First call attaches debugger."),
    ("inputSchema", .obj [
      ("type", .str "object"),
      ("properties", .obj [
        ("level", .obj [
          ("type", .str "string"),
          ("description", .str "Filter by level"),
          ("enum", .arr [.str "all", .str "error", .str "warning", .str "info"])]),
        ("clear", .obj [
          ("type", .str "boolean"),
          ("description", .str "Clear logs after retrieving")])])])],
  .obj [
    ("name", .str "inspect_page"),
    ("description", .str "Analyze page complexity to decide whether to download DOM to file."),
    ("inputSchema", .obj [
      ("type", .str "object"),
      ("properties", .obj [])])],
  .obj [
    ("name", .str "get_page_text"),
    ("description", .str "Get the visible text content of the page (no HTML). Much smaller than DOM. Best for summarization."),
    ("inputSchema", .obj [
      ("type", .str "object"),
      ("properties", .obj [
        ("selector", .obj [
          ("type", .str "string"),
          ("description", .str "CSS selector to get text from specific element (default: body)")]),
        ("maxLength", .obj [
          ("type", .str "number"),
          ("description", .str "Maximum text length to return (default: 50000)")])])])],
  .obj [
    ("name", .str "save_page_to_file"),
    ("description", .str "Save page content to a local file for analysis with standard tools. Use for large pages. Returns file path you can read with your file tools."),
    ("inputSchema", .obj [
      ("type", .str "object"),
      ("properties", .obj [
        ("format", .obj [
          ("type", .str "string"),
          ("description", .str "Output format"),
          ("enum", .arr [.str "text", .str "markdown", .str "html"]),
          ("default", .str "text")]),
        ("filename", .obj [
          ("type", .str "string"),
          ("description", .str "Custom filename (optional, auto-generated if not provided)")])])])]]

/-- `MCPServer.handleToolsList`. -/
def handleToolsList (req : JSONRPCRequest) : JSONRPCResponse :=
  ⟨"2.0", some (.obj [("tools", .arr toolsCatalogue)]), none, req.id⟩

/-- The `actionMap` literal from `handleToolsCall`, mapping tool names to
Chrome actions. -/
def actionMap (name : String) : Option String :=
  if name = "get_browser_dom" then some "getDom"
  else if name = "get_browser_url" then some "getUrl"
  else if name = "get_browser_selection" then some "getSelection"
  else if name = "capture_browser_screenshot" then some "screenshot"
  else if name = "execute_browser_script" then some "executeScript"
  else if name = "modify_dom" then some "modifyDom"
  else if name = "get_console_logs" then some "getConsoleLogs"
  else if name = "inspect_page" then some "inspectPage"
  else if name = "get_page_text" then some "getPageText"
  else none

/-- The anonymous params struct of `handleToolsCall`. -/
structure ToolCallParams where
  name : String
  arguments : List (String × JVal)
deriving Repr

/-- Go `json.Unmarshal(req.Params, &params)` into that struct: fails when the
params field is absent or not an object (or `null`), defaults missing fields
to their zero values, and rejects fields of the wrong type. -/
def parseToolsCallParams : Option JVal → Option ToolCallParams
  | none => none
  | some v =>
      match v with
      | .null => some ⟨"", []⟩
      | .obj fields =>
          let nameField : Option String :=
            match jsonLookup fields "name" with
            | none => some ""
            | some (.str s) => some s
            | some _ => none
          let argsField : Option (List (String × JVal)) :=
            match jsonLookup fields "arguments" with
            | none => some []
            | some .null => some []
            | some (.obj f) => some f
            | some _ => none
          match nameField, argsField with
          | some n, some a => some ⟨n, a⟩
          | _, _ => none
      | _ => none

/-- One element of the `content` array in a tool result. -/
inductive ContentItem where
  | text (text : String)
  | image (data : String) (mimeType : String)
deriving Repr, DecidableEq

/-- `MCPServer.formatToolResult`: screenshots whose `dataUrl` is longer than
the 22-byte `data:image/png;base64,` preamble become an image item carrying
the remainder; everything else is returned as indented JSON text. -/
def formatToolResult (toolName : String) (data : JVal) : List ContentItem :=
  if toolName = "capture_browser_screenshot" then
    match data with
    | .obj dataMap =>
        match jsonLookup dataMap "dataUrl" with
        | some (.str dataUrl) =>
            if 22 < dataUrl.data.length then
              [.image (String.mk (dataUrl.data.drop 22)) "image/png"]
            else [.text (jvalText data)]
        | _ => [.text (jvalText data)]
    | _ => [.text (jvalText data)]
  else [.text (jvalText data)]

/-- Re-encode content items as the JSON the facade marshals. -/
def contentToJVal (items : List ContentItem) : JVal :=
  .arr (items.map fun it =>
    match it with
    | .text t => .obj [("type", .str "text"), ("text", .str t)]
    | .image d m => .obj [("type", .str "image"), ("data", .str d), ("mimeType", .str m)])

/-- What `reader.ReadBytes('\n')` plus `json.Unmarshal` on the facade's
socket connection produced for one round trip. -/
inductive SockRead where
  | readError
  | parseError
  | response (resp : SocketResponse)

/-- The environment one facade request handler runs in: `connected` is
whether `s.conn` is non-nil, `genId` the `uuid.New().String()` drawn for
this call, `writeOk` the `conn.Write` outcome, `sockRead` the read outcome,
`homeDir` is `os.UserHomeDir()`, `nowUnix` is `time.Now().Unix()`, and
`fileWriteOk` the `os.WriteFile` outcome. -/
structure FacadeEnv where
  connected : Bool
  genId : String
  writeOk : Bool
  sockRead : SockRead
  homeDir : String
  nowUnix : Nat
  fileWriteOk : Bool

/-- The not-connected error text from mcp_server.go. -/
def notConnectedMsg : String :=
  "Not connected to Chrome. Make sure the Chrome extension is open."

/-- The fixed pages directory,
`filepath.Join(homeDir, "Library", "Application Support", "ChromeGeminiSync", "pages")`. -/
def pagesDir (homeDir : String) : String :=
  homeDir ++ "/Library/Application Support/ChromeGeminiSync/pages"

/-- The sanitiser's per-rune predicate from `handleSavePageToFile`: keep
ASCII letters, digits, spaces, and hyphens. -/
def keepRune (r : Char) : Bool :=
  decide (('a' ≤ r ∧ r ≤ 'z') ∨ ('A' ≤ r ∧ r ≤ 'Z') ∨ ('0' ≤ r ∧ r ≤ '9') ∨
    r = ' ' ∨ r = '-')

/-- The safe filename stem: `"page"` for an empty title, otherwise the title
filtered to kept runes and truncated to 50 (all kept runes are one byte, so
Go's byte slicing `safe[:50]` is rune slicing). -/
def safeTitle (title : String) : String :=
  if title = "" then "page"
  else
    let safe := String.mk (title.data.filter keepRune)
    if 50 < safe.data.length then String.mk (safe.data.take 50) else safe

/-- The generated path `filepath.Join(pagesDir, fmt.Sprintf("%s-%d%s", safeTitle,
time.Now().Unix(), ext))`. -/
def savePageGenPath (homeDir title : String) (ts : Nat) (ext : String) : String :=
  pagesDir homeDir ++ "/" ++ safeTitle title ++ "-" ++ toString ts ++ ext

/-- A write to the local filesystem: the path handed to `os.WriteFile` and
the bytes written. -/
structure FileWrite where
  path : String
  content : String
deriving Repr, DecidableEq

/-- `MCPServer.handleSavePageToFile`: one socket round trip for
`getPageForDownload`, then derivation of the file path (explicit `filename`
argument, or sanitised title plus Unix timestamp) and the local write.
`some` carries the JSON-RPC response, the envelope written to the socket
(if the write happened), and the file write performed (if any); `none` is
the Go panic at the unchecked type assertion `filename.(string)`, reached
when the success path finds a `filename` argument that is present,
non-null, and not a string — the process crashes and no response is
produced. -/
def handleSavePageToFile (env : FacadeEnv) (idv : JVal)
    (args : List (String × JVal)) :
    Option (JSONRPCResponse × Option SocketMessage × Option FileWrite) :=
  let format := match jsonLookup args "format" with
    | some (.str f) => f
    | _ => "text"
  if env.connected = false then
    some (errorResponse idv (-32000) notConnectedMsg, none, none)
  else
    let written : SocketMessage :=
      ⟨"browser:request", env.genId, "getPageForDownload",
        .obj [("format", .str format)]⟩
    if env.writeOk = false then
      some (errorResponse idv (-32000) "Failed to send request", none, none)
    else
      match env.sockRead with
      | .readError =>
          some (errorResponse idv (-32000) "Failed to read response", some written, none)
      | .parseError =>
          some (errorResponse idv (-32000) "Failed to parse response", some written, none)
      | .response sr =>
          if sr.success = false then
            some (errorResponse idv (-32000) sr.error, some written, none)
          else
            match sr.data with
            | .obj dataMap =>
                let content := match jsonLookup dataMap "content" with
                  | some (.str c) => c
                  | _ => ""
                let title := match jsonLookup dataMap "title" with
                  | some (.str t) => t
                  | _ => ""
                let url := match jsonLookup dataMap "url" with
                  | some (.str u) => u
                  | _ => ""
                let ext := if format = "html" then ".html"
                  else if format = "markdown" then ".md"
                  else ".txt"
                let filePathOpt : Option String := match jsonLookup args "filename" with
                  | none => some (savePageGenPath env.homeDir title env.nowUnix ext)
                  | some .null => some (savePageGenPath env.homeDir title env.nowUnix ext)
                  | some (.str f) =>
                      if f = "" then some (savePageGenPath env.homeDir title env.nowUnix ext)
                      else some (pagesDir env.homeDir ++ "/" ++ f)
                  | some _ => none
                match filePathOpt with
                | none => none
                | some filePath =>
                    if env.fileWriteOk = false then
                      some (errorResponse idv (-32000) "Failed to write file",
                        some written, none)
                    else
                      let result : JVal := .obj [
                        ("filePath", .str filePath),
                        ("format", .str format),
                        ("size", .num (content.length : Int)),
                        ("url", .str url),
                        ("title", .str title),
                        ("message", .str ("Page saved to " ++ filePath ++
                          ". Use your file reading tools to analyze it."))]
                      some (⟨"2.0",
                        some (.obj [("content", .arr [.obj [
                          ("type", .str "text"),
                          ("text", .str (jvalText result))]])]),
                        none, idv⟩,
                       some written, some ⟨filePath, content⟩)
            | _ =>
                some (errorResponse idv (-32000) "Invalid response format",
                  some written, none)

/-- `MCPServer.handleToolsCall`: parse the params; special-case
`save_page_to_file`; map the tool name to its Chrome action (unknown tools
are rejected before any connectivity check); require a live socket
connection; then perform the one-line write / one-line read round trip and
shape the result.  `some` carries the response plus the envelope written to
the socket (if the write happened); `none` propagates the
`handleSavePageToFile` panic (the process crashes before returning). -/
def handleToolsCall (env : FacadeEnv) (req : JSONRPCRequest) :
    Option (JSONRPCResponse × Option SocketMessage) :=
  match parseToolsCallParams req.params with
  | none => some (errorResponse req.id (-32602) "Invalid params", none)
  | some p =>
      if p.name = "save_page_to_file" then
        (handleSavePageToFile env req.id p.arguments).map (fun r => (r.1, r.2.1))
      else
        match actionMap p.name with
        | none => some (errorResponse req.id (-32601) ("Unknown tool: " ++ p.name), none)
        | some action =>
            if env.connected = false then
              some (errorResponse req.id (-32000) notConnectedMsg, none)
            else
              let written : SocketMessage :=
                ⟨"browser:request", env.genId, action, .obj p.arguments⟩
              if env.writeOk = false then
                some (errorResponse req.id (-32000) "Failed to send request", none)
              else
                match env.sockRead with
                | .readError =>
                    some (errorResponse req.id (-32000) "Failed to read response",
                      some written)
                | .parseError =>
                    some (errorResponse req.id (-32000) "Failed to parse response",
                      some written)
                | .response sr =>
                    if sr.success = false then
                      some (errorResponse req.id (-32000) sr.error, some written)
                    else
                      some (⟨"2.0",
                        some (.obj [("content",
                          contentToJVal (formatToolResult p.name sr.data))]),
                        none, req.id⟩,
                       some written)

/-- `MCPServer.handleRequest`: dispatch on the method.  The outer `Option`
is process liveness (`none` = the tools/call panic crashed the process); the
inner `Option` is the Go `*JSONRPCResponse` (`none` = no output line, for
notifications and unknown methods). -/
def handleRequest (env : FacadeEnv) (req : JSONRPCRequest) :
    Option (Option JSONRPCResponse) :=
  if req.method = "initialize" then some (some (handleInitialize req))
  else if req.method = "notifications/initialized" then some none
  else if req.method = "tools/list" then some (some (handleToolsList req))
  else if req.method = "tools/call" then
    (handleToolsCall env req).map (fun r => some r.1)
  else some none

/-- `maxRetries := 10` in `connect`. -/
def maxRetries : Nat := 10

/-- The delay between dial attempts, `time.Sleep(500 * time.Millisecond)`. -/
def retryDelayMs : Nat := 500

/-- The dial loop of `connect` with `budget` attempts left: `dial i` is
whether attempt `i` (0-based) succeeds.  Returns the number of attempts made
and whether a connection was established. -/
def connectAux (dial : Nat → Bool) (attempt : Nat) : Nat → Nat × Bool
  | 0 => (attempt, false)
  | budget + 1 =>
      if dial attempt then (attempt + 1, true)
      else connectAux dial (attempt + 1) budget

/-- `MCPServer.connect`: up to `maxRetries` dial attempts. -/
def connect (dial : Nat → Bool) : Nat × Bool := connectAux dial 0 maxRetries

/-- A facade whose startup dial never succeeded (`s.conn == nil`), for
witnesses and counterexamples. -/
def envDisconnected : FacadeEnv :=
  ⟨false, "uuid-1", true, .readError, "/Users/u", 1700000000, true⟩

/-- A socket response carrying an arbitrary request id, for witnesses. -/
def srOkUrl : SocketResponse :=
  ⟨"browser:response", "other-rid", true, .obj [("url", .str "https://x")], ""⟩

/-- A connected facade environment, for witnesses. -/
def envConnected : FacadeEnv :=
  ⟨true, "uuid-9", true, .response srOkUrl, "/Users/u", 1700000000, true⟩

/-- A `tools/call` request for `get_browser_url`, for witnesses. -/
def reqGetUrl : JSONRPCRequest :=
  ⟨"2.0", "tools/call", some (.obj [("name", .str "get_browser_url")]), .num 1⟩

/-- A `tools/call` request naming a tool that does not exist. -/
def reqUnknownTool : JSONRPCRequest :=
  ⟨"2.0", "tools/call", some (.obj [("name", .str "bogus_tool")]), .num 2⟩

/-- An `initialize` request, for witnesses. -/
def reqInitialize : JSONRPCRequest := ⟨"2.0", "initialize", none, .num 3⟩

/-! ## Theorems -/

theorem decNat_encNat (n : Nat) (r : List Nat) :
    decNat (encNat n ++ r) = some (n, r) := by
  induction n with
  | zero => simp [encNat, decNat]
  | succ m ih => simp [encNat, decNat, ih]

theorem decStr_encStr (s : String) (r : List Nat) :
    decStr (encStr s ++ r) = some (s, r) := by
  have hlen : (s.data.map Char.toNat).length = s.data.length := by
    simp
  unfold encStr decStr
  rw [List.append_assoc, decNat_encNat]
  have htake : ((s.data.map Char.toNat ++ r).take s.data.length) = s.data.map Char.toNat := by
    rw [← hlen]; exact List.take_left _ _
  have hdrop : ((s.data.map Char.toNat ++ r).drop s.data.length) = r := by
    rw [← hlen]; exact List.drop_left _ _
  simp only [htake, hdrop]
  rw [if_pos (by simp)]
  congr 1
  congr 1
  · rw [List.map_map]
    have : ∀ cs : List Char, cs.map (Char.ofNat ∘ Char.toNat) = cs := by
      intro cs
      induction cs with
      | nil => rfl
      | cons c cs ih => simp [ih, Char.ofNat_toNat]
    rw [this]

theorem decOptStr_encOptStr (o : Option String) (r : List Nat) :
    decOptStr (encOptStr o ++ r) = some (o, r) := by
  cases o with
  | none => simp [encOptStr, decOptStr]
  | some s => simp [encOptStr, decOptStr, decStr_encStr]

theorem decInt_encInt (i : Int) (r : List Nat) :
    decInt (encInt i ++ r) = some (i, r) := by
  by_cases h : 0 ≤ i
  · unfold encInt decInt
    rw [if_pos h]
    simp only [List.cons_append, decNat_encNat]
    simp [Int.natAbs_of_nonneg h]
  · unfold encInt decInt
    rw [if_neg h]
    simp only [List.cons_append, decNat_encNat]
    have hi : -((i.natAbs : Int)) = i := by omega
    rw [hi]

theorem decOptInt_encOptInt (o : Option Int) (r : List Nat) :
    decOptInt (encOptInt o ++ r) = some (o, r) := by
  cases o with
  | none => simp [encOptInt, decOptInt]
  | some i => simp [encOptInt, decOptInt, decInt_encInt]

theorem decBool_encBool (b : Bool) (r : List Nat) :
    decBool (encBool b ++ r) = some (b, r) := by
  cases b <;> simp [encBool, decBool]

theorem jsonDec_jsonEnc (m : Message) : jsonDec (jsonEnc m) = some m := by
  have hlast : decStr (encStr m.error) = some (m.error, []) := by
    have h := decStr_encStr m.error []
    simpa using h
  unfold jsonDec jsonEnc
  rw [decStr_encStr]
  simp only [Option.bind_eq_bind, Option.some_bind]
  rw [decOptStr_encOptStr]
  simp only [Option.some_bind]
  rw [decOptInt_encOptInt]
  simp only [Option.some_bind]
  rw [decOptInt_encOptInt]
  simp only [Option.some_bind]
  rw [decOptStr_encOptStr]
  simp only [Option.some_bind]
  rw [decStr_encStr]
  simp only [Option.some_bind]
  rw [decOptStr_encOptStr]
  simp only [Option.some_bind]
  rw [decBool_encBool]
  simp only [Option.some_bind]
  rw [hlast]
  rfl

theorem u32leVal_u32le (n : Nat) (h : n < 4294967296) :
    u32leVal (n % 256) (n / 256 % 256) (n / 65536 % 256) (n / 16777216 % 256) = n := by
  unfold u32leVal
  omega

theorem encNat_length (n : Nat) : (encNat n).length = n + 1 := by
  induction n with
  | zero => rfl
  | succ m ih => simp [encNat, ih]

theorem encStr_length (s : String) :
    (encStr s).length = 2 * s.data.length + 1 := by
  simp [encStr, encNat_length]
  omega

/-- C3: a `FramedMessage` whose encoding fits in `MaxMessageSize` round-trips
through `WriteNativeMessage` and `ReadNativeMessage`; a stream whose 4-byte
little-endian prefix declares a length strictly over the limit is rejected by
`ReadNativeMessage` whatever (and however few) payload bytes follow; and
`WriteNativeMessage` of an over-limit encoding fails, producing no bytes. -/
theorem c3_framed_message_roundtrip :
    (∀ (m : Message) (extra : List Nat), (jsonEnc m).length ≤ MaxMessageSize →
      ∃ out, WriteNativeMessage m = some out ∧
        ReadNativeMessage (out ++ extra) = some (m, extra)) ∧
    (∀ b0 b1 b2 b3 rest, u32leVal b0 b1 b2 b3 > MaxMessageSize →
      ReadNativeMessage (b0 :: b1 :: b2 :: b3 :: rest) = none) ∧
    (∀ m : Message, (jsonEnc m).length > MaxMessageSize →
      WriteNativeMessage m = none) := by
  refine ⟨?_, ?_, ?_⟩
  · intro m extra hle
    refine ⟨u32le (jsonEnc m).length ++ jsonEnc m, ?_, ?_⟩
    · unfold WriteNativeMessage
      rw [if_neg (by omega)]
    · have hlt : (jsonEnc m).length < 4294967296 := by
        have : MaxMessageSize = 1048576 := rfl
        omega
      unfold u32le
      simp only [List.cons_append, List.nil_append, List.append_assoc]
      simp only [ReadNativeMessage]
      rw [u32leVal_u32le _ hlt]
      rw [if_neg (by omega)]
      rw [if_neg (by simp)]
      rw [List.take_left, List.drop_left, jsonDec_jsonEnc]
  · intro b0 b1 b2 b3 rest hgt
    simp only [ReadNativeMessage]
    rw [if_pos hgt]
  · intro m hgt
    unfold WriteNativeMessage
    rw [if_pos hgt]

theorem c3_framed_message_roundtrip_witness :
    (∃ out, WriteNativeMessage msgTermOut = some out ∧
      ReadNativeMessage (out ++ [9]) = some (msgTermOut, [9])) ∧
    ReadNativeMessage [1, 0, 16, 0] = none ∧
    WriteNativeMessage msgOversize = none := by
  refine ⟨c3_framed_message_roundtrip.1 msgTermOut [9] (by decide),
          c3_framed_message_roundtrip.2.1 1 0 16 0 [] (by decide),
          c3_framed_message_roundtrip.2.2 msgOversize ?_⟩
  show (jsonEnc msgOversize).length > MaxMessageSize
  have h1 : (jsonEnc msgOversize).length =
      (encStr msgOversize.type).length + ((encOptStr msgOversize.data).length +
      ((encOptInt msgOversize.cols).length + ((encOptInt msgOversize.rows).length +
      ((encOptStr msgOversize.requestId).length + ((encStr msgOversize.action).length +
      ((encOptStr msgOversize.params).length + ((encBool msgOversize.success).length +
      (encStr msgOversize.error).length))))))) := by
    unfold jsonEnc
    simp only [List.length_append]
  have h2 : (encStr msgOversize.error).length = 2 * 1048576 + 1 := by
    rw [encStr_length]
    rw [show msgOversize.error.data = List.replicate 1048576 'a' from rfl]
    rw [List.length_replicate]
  have h3 : (encStr msgOversize.type).length = 1 := rfl
  have h4 : (encOptStr msgOversize.data).length = 1 := rfl
  have h5 : (encOptInt msgOversize.cols).length = 1 := rfl
  have h6 : (encOptInt msgOversize.rows).length = 1 := rfl
  have h7 : (encOptStr msgOversize.requestId).length = 1 := rfl
  have h8 : (encStr msgOversize.action).length = 1 := rfl
  have h9 : (encOptStr msgOversize.params).length = 1 := rfl
  have h10 : (encBool msgOversize.success).length = 1 := rfl
  have hmax : MaxMessageSize = 1048576 := rfl
  omega

theorem tableLookup_insert_self (t : PendingTable) (k : String) (v : RespChan) :
    tableLookup (tableInsert t k v) k = some v := by
  induction t with
  | nil => simp [tableInsert, tableLookup]
  | cons e rest ih =>
    obtain ⟨k₂, w⟩ := e
    by_cases h : k₂ = k
    · simp [tableInsert, h, tableLookup]
    · simp [tableInsert, h, tableLookup, ih]

theorem tableLookup_insert_ne (t : PendingTable) (k k₂ : String) (v : RespChan)
    (h : k₂ ≠ k) : tableLookup (tableInsert t k v) k₂ = tableLookup t k₂ := by
  induction t with
  | nil => simp [tableInsert, tableLookup, Ne.symm h]
  | cons e rest ih =>
    obtain ⟨k₃, w⟩ := e
    by_cases h₃ : k₃ = k
    · subst h₃
      simp [tableInsert, tableLookup, Ne.symm h]
    · simp only [tableInsert, if_neg h₃]
      by_cases h₄ : k₃ = k₂
      · simp [tableLookup, h₄]
      · simp [tableLookup, h₄, ih]

theorem tableErase_insert_fresh (t : PendingTable) (k : String) (v : RespChan)
    (h : tableLookup t k = none) : tableErase (tableInsert t k v) k = t := by
  induction t with
  | nil => simp [tableInsert, tableErase]
  | cons e rest ih =>
    obtain ⟨k₂, w⟩ := e
    by_cases h₂ : k₂ = k
    · simp [tableLookup, h₂] at h
    · simp only [tableLookup, if_neg h₂] at h
      simp [tableInsert, tableErase, h₂, ih h]

/-- C1: with a pending entry registered under `rid` whose single-slot channel
is still empty, `HandleResponse rid msg` delivers `msg` exactly once, to that
entry and to no other (every other id's entry is untouched); a second
response for the same id finds the slot full and is dropped with no state
change; and a response whose id is in no pending entry is discarded leaving
the whole table unchanged. -/
theorem c1_response_correlation :
    (∀ (pending : PendingTable) (rid : String) (msg : Message),
      tableLookup pending rid = some none →
        (HandleResponse pending rid msg).2 = true ∧
        tableLookup (HandleResponse pending rid msg).1 rid = some (some msg) ∧
        ∀ rid₂, rid₂ ≠ rid →
          tableLookup (HandleResponse pending rid msg).1 rid₂ = tableLookup pending rid₂) ∧
    (∀ (pending : PendingTable) (rid : String) (msg m₀ : Message),
      tableLookup pending rid = some (some m₀) →
        HandleResponse pending rid msg = (pending, false)) ∧
    (∀ (pending : PendingTable) (rid : String) (msg : Message),
      tableLookup pending rid = none →
        HandleResponse pending rid msg = (pending, false)) := by
  refine ⟨?_, ?_, ?_⟩
  · intro pending rid msg h
    unfold HandleResponse
    rw [h]
    refine ⟨rfl, ?_, ?_⟩
    · simp [tableLookup_insert_self]
    · intro rid₂ hne
      simp [tableLookup_insert_ne pending rid rid₂ (some msg) hne]
  · intro pending rid msg m₀ h
    unfold HandleResponse
    rw [h]
  · intro pending rid msg h
    unfold HandleResponse
    rw [h]

theorem c1_response_correlation_witness :
    ((HandleResponse tableTwoCalls "id-a" msgRespA).2 = true ∧
     tableLookup (HandleResponse tableTwoCalls "id-a" msgRespA).1 "id-a" =
       some (some msgRespA) ∧
     tableLookup (HandleResponse tableTwoCalls "id-a" msgRespA).1 "id-b" =
       tableLookup tableTwoCalls "id-b") ∧
    HandleResponse tableTwoCalls "id-unknown" msgRespA = (tableTwoCalls, false) := by
  have h := c1_response_correlation.1 tableTwoCalls "id-a" msgRespA (by rfl)
  exact ⟨⟨h.1, h.2.1, h.2.2 "id-b" (by decide)⟩,
         c1_response_correlation.2.2 tableTwoCalls "id-unknown" msgRespA (by rfl)⟩

/-- C2: the timeout is the fixed 30 seconds; and a `Request` call that
registers a fresh id, writes its frame, and sees the timer fire before any
response is buffered returns the timeout error with its pending entry
removed by the deferred delete (the table returns to exactly its prior
state), so a response arriving for that id afterwards is discarded without
being delivered, queued, or altering the table visible to later calls. -/
theorem c2_request_timeout :
    RequestTimeout = 30 * timeSecond ∧
    ∀ (pending : PendingTable) (rid : String) (msg : Message),
      tableLookup pending rid = none →
        (requestFinish (requestRegister pending rid) rid true .timerFired).1 = .timeout ∧
        tableLookup (requestFinish (requestRegister pending rid) rid true .timerFired).2 rid
          = none ∧
        (requestFinish (requestRegister pending rid) rid true .timerFired).2 = pending ∧
        HandleResponse
          (requestFinish (requestRegister pending rid) rid true .timerFired).2 rid msg =
          ((requestFinish (requestRegister pending rid) rid true .timerFired).2, false) := by
  refine ⟨rfl, ?_⟩
  intro pending rid msg h
  have hfin : (requestFinish (requestRegister pending rid) rid true .timerFired).2 = pending := by
    unfold requestFinish requestRegister
    simpa using tableErase_insert_fresh pending rid none h
  refine ⟨rfl, ?_, hfin, ?_⟩
  · rw [hfin, h]
  · rw [hfin]
    unfold HandleResponse
    rw [h]

theorem c2_request_timeout_witness :
    (requestFinish (requestRegister tableTwoCalls "id-c") "id-c" true .timerFired).1 =
      .timeout ∧
    tableLookup (requestFinish (requestRegister tableTwoCalls "id-c") "id-c" true
      .timerFired).2 "id-c" = none ∧
    (requestFinish (requestRegister tableTwoCalls "id-c") "id-c" true .timerFired).2 =
      tableTwoCalls ∧
    HandleResponse
      (requestFinish (requestRegister tableTwoCalls "id-c") "id-c" true .timerFired).2
      "id-c" msgRespA =
      ((requestFinish (requestRegister tableTwoCalls "id-c") "id-c" true .timerFired).2,
        false) :=
  c2_request_timeout.2 tableTwoCalls "id-c" msgRespA (by rfl)

/-- C4: the output queue holds `100` chunks of reads of at most `4096` bytes;
when it is saturated the newly produced (newest) chunk is dropped and every
already-queued chunk is kept (the queue is unchanged); when it has room the
chunk is appended; the reading loop processes every subsequent read exactly
the same way (it continues past a drop without blocking, as `readOutputLoop`
is total) and never grows the queue past its capacity. -/
theorem c4_backpressure_drop_newest :
    outputChanCapacity = 100 ∧ ptyReadBufSize = 4096 ∧
    (∀ (queue : List String) (chunk : String),
      outputChanCapacity ≤ queue.length → offerOutput queue chunk = queue) ∧
    (∀ (queue : List String) (chunk : String),
      queue.length < outputChanCapacity → offerOutput queue chunk = queue ++ [chunk]) ∧
    (∀ (queue chunks more : List String),
      readOutputLoop queue (chunks ++ more) =
        readOutputLoop (readOutputLoop queue chunks) more) ∧
    (∀ (queue chunks : List String),
      queue.length ≤ outputChanCapacity →
        (readOutputLoop queue chunks).length ≤ outputChanCapacity) := by
  refine ⟨rfl, rfl, ?_, ?_, ?_, ?_⟩
  · intro queue chunk h
    unfold offerOutput
    rw [if_neg (by omega)]
  · intro queue chunk h
    unfold offerOutput
    rw [if_pos h]
  · intro queue chunks more
    unfold readOutputLoop
    exact List.foldl_append offerOutput queue chunks more
  · intro queue chunks h
    induction chunks generalizing queue with
    | nil => exact h
    | cons c rest ih =>
      show (readOutputLoop (offerOutput queue c) rest).length ≤ outputChanCapacity
      apply ih
      unfold offerOutput
      by_cases hlt : queue.length < outputChanCapacity
      · rw [if_pos hlt]; simp; omega
      · rw [if_neg hlt]; exact h

theorem c4_backpressure_drop_newest_witness :
    offerOutput fullQueue "newest" = fullQueue ∧
    offerOutput [] "first" = ["first"] ∧
    (readOutputLoop fullQueue ["x", "y"]).length ≤ outputChanCapacity := by
  have hfull : outputChanCapacity ≤ fullQueue.length := by
    unfold fullQueue outputChanCapacity
    simp
  refine ⟨c4_backpressure_drop_newest.2.2.1 fullQueue "newest" hfull,
          c4_backpressure_drop_newest.2.2.2.1 [] "first" (by decide),
          c4_backpressure_drop_newest.2.2.2.2.2 fullQueue ["x", "y"] (by decide)⟩

/-- C5 counterexample: take the session that was started once and then
stopped.  The claim asserts that a `Write` after `Stop` succeeds (returns no
error) and that the output feed has been closed; on the code, `Stop` leaves
`ptmx` non-nil but closed, so `Write` hits the closed descriptor and returns
its error, and no code path ever closes `outputCh`. -/
theorem c5_counterexample :
    ¬ (PTYManager.write (PTYManager.stop (PTYManager.start PTYManager.new)) = .ok ∧
       (PTYManager.stop (PTYManager.start PTYManager.new)).outputChClosed = true) := by
  decide

/-- C5 amended: `Stop` is idempotent, and it never closes the output feed
(`outputCh` stays open forever, so a consumer ranging over it does not
terminate by channel close); after `Stop` on a started session, `Write` and
`Resize` are not silent successes but return the closed-descriptor error
(they are silent no-ops only while no session has ever started). -/
theorem c5_stop_semantics :
    (∀ p : PTYManager, PTYManager.stop (PTYManager.stop p) = PTYManager.stop p) ∧
    (∀ p : PTYManager,
      PTYManager.write (PTYManager.stop (PTYManager.start p)) = .errClosed) ∧
    (∀ p : PTYManager,
      PTYManager.resize (PTYManager.stop (PTYManager.start p)) = .errClosed) ∧
    (∀ p : PTYManager, (PTYManager.stop p).outputChClosed = p.outputChClosed) ∧
    PTYManager.new.outputChClosed = false ∧
    PTYManager.write PTYManager.new = .ok ∧
    PTYManager.resize PTYManager.new = .ok := by
  refine ⟨?_, ?_, ?_, ?_, rfl, rfl, rfl⟩
  · intro p
    obtain ⟨ptmx, r, o⟩ := p
    cases ptmx <;> rfl
  · intro p; rfl
  · intro p; rfl
  · intro p
    obtain ⟨ptmx, r, o⟩ := p
    cases ptmx <;> rfl

/-- C6 counterexample: a handler that reads one undecodable line does not
close its connection — `handleClient` hits `continue`, not `return`, so the
connection stays open, refuting the claim that a JSON decode failure closes
the connection. -/
theorem c6_counterexample :
    ¬ (handleClient oracleTimeout [.undecodableLine]).closed = true := by
  decide

/-- C6 amended: a *read* failure terminates exactly that connection's
handler (no further lines are read); a JSON *decode* failure is logged and
skipped, the handler continuing on the same connection; each connection's
entire observable outcome is a function of its own event stream alone
(changing connection A's events cannot change connection B's result); and a
handler terminating leaves the accept loop's `running` flag and every other
tracked connection untouched. -/
theorem c6_connection_isolation :
    (∀ (outcomes : SocketMessage → ReqOutcome) (rest : List ClientReadEvent),
      handleClient outcomes (.readFailure :: rest) = ⟨[], true⟩) ∧
    (∀ (outcomes : SocketMessage → ReqOutcome) (rest : List ClientReadEvent),
      handleClient outcomes (.undecodableLine :: rest) = handleClient outcomes rest) ∧
    (∀ (outcomes : SocketMessage → ReqOutcome)
       (evsA evsA₂ evsB : List ClientReadEvent),
      (serverHandleConnections outcomes [evsA, evsB]).drop 1 =
      (serverHandleConnections outcomes [evsA₂, evsB]).drop 1) ∧
    (∀ (s : SocketServer) (cid : Nat), (connTerminate s cid).running = s.running) ∧
    (∀ (s : SocketServer) (cid cid₂ : Nat), cid₂ ≠ cid →
      (cid₂ ∈ (connTerminate s cid).clients ↔ cid₂ ∈ s.clients)) := by
  refine ⟨?_, ?_, ?_, ?_, ?_⟩
  · intro outcomes rest; rfl
  · intro outcomes rest; rfl
  · intro outcomes evsA evsA₂ evsB; rfl
  · intro s cid; rfl
  · intro s cid cid₂ h
    simp [connTerminate, List.mem_filter, h]

theorem c6_connection_isolation_witness :
    (2 ∈ (connTerminate serverTwoClients 1).clients ↔ 2 ∈ serverTwoClients.clients) :=
  c6_connection_isolation.2.2.2.2 serverTwoClients 1 2 (by decide)

theorem connectAux_allFail (dial : Nat → Bool) (h : ∀ i, dial i = false) :
    ∀ (budget attempt : Nat), connectAux dial attempt budget = (attempt + budget, false) := by
  intro budget
  induction budget with
  | zero => intro attempt; rfl
  | succ b ih =>
    intro attempt
    unfold connectAux
    rw [h attempt]
    simp only [Bool.false_eq_true, if_false]
    rw [ih (attempt + 1)]
    congr 1
    omega

theorem handleSavePageToFile_envelope (env : FacadeEnv) (idv : JVal)
    (args : List (String × JVal)) :
    ∀ r, handleSavePageToFile env idv args = some r →
      r.1.jsonrpc = "2.0" ∧ r.1.id = idv := by
  intro r hr
  revert hr
  simp only [handleSavePageToFile]
  repeat' split
  all_goals intro hr
  all_goals first
    | exact Option.noConfusion hr
    | (obtain rfl := Option.some.inj hr; exact ⟨rfl, rfl⟩)

theorem handleToolsCall_envelope (env : FacadeEnv) (req : JSONRPCRequest) :
    ∀ r, handleToolsCall env req = some r →
      r.1.jsonrpc = "2.0" ∧ r.1.id = req.id := by
  intro r hr
  unfold handleToolsCall at hr
  cases hp : parseToolsCallParams req.params with
  | none =>
      rw [hp] at hr
      obtain rfl := Option.some.inj hr
      exact ⟨rfl, rfl⟩
  | some p =>
      rw [hp] at hr
      dsimp only at hr
      by_cases hs : p.name = "save_page_to_file"
      · rw [if_pos hs] at hr
        cases hsv : handleSavePageToFile env req.id p.arguments with
        | none =>
            rw [hsv] at hr
            exact Option.noConfusion hr
        | some r₂ =>
            rw [hsv] at hr
            simp only [Option.map_some'] at hr
            obtain rfl := Option.some.inj hr
            exact handleSavePageToFile_envelope env req.id p.arguments r₂ hsv
      · rw [if_neg hs] at hr
        revert hr
        repeat' split
        all_goals intro hr
        all_goals (obtain rfl := Option.some.inj hr; exact ⟨rfl, rfl⟩)

/-- C7 counterexample: with no socket connection, a `tools/call` naming a
tool outside the catalogue is answered with the `-32601` "Unknown tool"
error — a well-formed JSON-RPC error, but one carrying no not-connected
indication, because `handleToolsCall` rejects unknown tool names before the
connectivity check.  So not *every* `tools/call` in the degraded state
returns a not-connected error. -/
theorem c7_counterexample :
    handleRequest envDisconnected reqUnknownTool =
      some (some (errorResponse (.num 2) (-32601) "Unknown tool: bogus_tool")) ∧
    ¬ ("Not connected".data <:+: "Unknown tool: bogus_tool".data) := by
  constructor
  · rfl
  · decide

/-- C7 amended: a failed startup dial makes exactly 10 attempts (500ms
apart) and leaves the facade disconnected, but the process still starts and
serves the handshake: `initialize` succeeds with a result and no error
whatever the connection state.  Decided before any connectivity check, a
`tools/call` whose params do not parse returns the well-formed `-32602`
"Invalid params" error, and one naming an unknown tool the well-formed
`-32601` "Unknown tool" error.  Every `tools/call` that names a catalogue
tool (or the special-cased `save_page_to_file`) while disconnected returns
the well-formed JSON-RPC `-32000` error whose message is the not-connected
indication; and in the disconnected state every `tools/call` returns some
well-formed JSON-RPC response — never a crash or a block (the only crash
path in the facade, the `filename.(string)` assertion, lies beyond the
connectivity check). -/
theorem c7_degraded_mode :
    maxRetries = 10 ∧ retryDelayMs = 500 ∧
    (∀ dial : Nat → Bool, (∀ i, dial i = false) → connect dial = (10, false)) ∧
    (∀ (env : FacadeEnv) (req : JSONRPCRequest), req.method = "initialize" →
      handleRequest env req = some (some (handleInitialize req)) ∧
      (handleInitialize req).error = none ∧
      (handleInitialize req).result.isSome = true) ∧
    (∀ (env : FacadeEnv) (req : JSONRPCRequest), req.method = "tools/call" →
      parseToolsCallParams req.params = none →
      handleRequest env req =
        some (some (errorResponse req.id (-32602) "Invalid params"))) ∧
    (∀ (env : FacadeEnv) (req : JSONRPCRequest) (p : ToolCallParams),
      req.method = "tools/call" →
      parseToolsCallParams req.params = some p →
      p.name ≠ "save_page_to_file" →
      actionMap p.name = none →
      handleRequest env req =
        some (some (errorResponse req.id (-32601) ("Unknown tool: " ++ p.name)))) ∧
    (∀ (env : FacadeEnv) (req : JSONRPCRequest) (p : ToolCallParams) (action : String),
      env.connected = false → req.method = "tools/call" →
      parseToolsCallParams req.params = some p →
      p.name ≠ "save_page_to_file" →
      actionMap p.name = some action →
      handleRequest env req =
        some (some (errorResponse req.id (-32000) notConnectedMsg))) ∧
    (∀ (env : FacadeEnv) (req : JSONRPCRequest) (p : ToolCallParams),
      env.connected = false → req.method = "tools/call" →
      parseToolsCallParams req.params = some p →
      p.name = "save_page_to_file" →
      handleRequest env req =
        some (some (errorResponse req.id (-32000) notConnectedMsg))) ∧
    (∀ (env : FacadeEnv) (req : JSONRPCRequest),
      env.connected = false → req.method = "tools/call" →
      ∃ resp, handleRequest env req = some (some resp) ∧
        resp.jsonrpc = "2.0" ∧ resp.id = req.id) := by
  refine ⟨rfl, rfl, ?_, ?_, ?_, ?_, ?_, ?_, ?_⟩
  · intro dial h
    unfold connect
    rw [connectAux_allFail dial h maxRetries 0]
    rfl
  · intro env req h
    refine ⟨?_, rfl, rfl⟩
    unfold handleRequest
    rw [if_pos h]
  · intro env req hm hp
    unfold handleRequest handleToolsCall
    simp [hm, hp]
  · intro env req p hm hp hns ha
    unfold handleRequest handleToolsCall
    simp [hm, hp, hns, ha]
  · intro env req p action hc hm hp hns ha
    unfold handleRequest handleToolsCall
    simp [hm, hp, hns, ha, hc]
  · intro env req p hc hm hp hname
    unfold handleRequest handleToolsCall handleSavePageToFile
    simp [hm, hp, hname, hc]
  · intro env req hc hm
    cases hp : parseToolsCallParams req.params with
    | none =>
        refine ⟨errorResponse req.id (-32602) "Invalid params", ?_, rfl, rfl⟩
        unfold handleRequest handleToolsCall
        simp [hm, hp]
    | some p =>
        by_cases hs : p.name = "save_page_to_file"
        · refine ⟨errorResponse req.id (-32000) notConnectedMsg, ?_, rfl, rfl⟩
          unfold handleRequest handleToolsCall handleSavePageToFile
          simp [hm, hp, hs, hc]
        · cases ha : actionMap p.name with
          | none =>
              refine ⟨errorResponse req.id (-32601) ("Unknown tool: " ++ p.name),
                ?_, rfl, rfl⟩
              unfold handleRequest handleToolsCall
              simp [hm, hp, hs, ha]
          | some action =>
              refine ⟨errorResponse req.id (-32000) notConnectedMsg, ?_, rfl, rfl⟩
              unfold handleRequest handleToolsCall
              simp [hm, hp, hs, ha, hc]

theorem c7_degraded_mode_witness :
    connect (fun _ => false) = (10, false) ∧
    handleRequest envDisconnected reqInitialize =
      some (some (handleInitialize reqInitialize)) ∧
    handleRequest envDisconnected reqGetUrl =
      some (some (errorResponse (.num 1) (-32000) notConnectedMsg)) ∧
    handleRequest envDisconnected reqUnknownTool =
      some (some (errorResponse (.num 2) (-32601) "Unknown tool: bogus_tool")) ∧
    handleRequest envDisconnected ⟨"2.0", "tools/call", none, .num 4⟩ =
      some (some (errorResponse (.num 4) (-32602) "Invalid params")) :=
  ⟨c7_degraded_mode.2.2.1 (fun _ => false) (fun _ => rfl),
   (c7_degraded_mode.2.2.2.1 envDisconnected reqInitialize rfl).1,
   c7_degraded_mode.2.2.2.2.2.2.1 envDisconnected reqGetUrl
     ⟨"get_browser_url", []⟩ "getUrl" rfl rfl (by rfl) (by decide) rfl,
   c7_degraded_mode.2.2.2.2.2.1 envDisconnected reqUnknownTool
     ⟨"bogus_tool", []⟩ rfl (by rfl) (by decide) rfl,
   c7_degraded_mode.2.2.2.2.1 envDisconnected ⟨"2.0", "tools/call", none, .num 4⟩
     rfl rfl⟩

theorem safeTitle_chars (t : String) :
    ∀ ch ∈ (safeTitle t).data, keepRune ch = true := by
  intro ch hch
  unfold safeTitle at hch
  by_cases ht : t = ""
  · rw [if_pos ht] at hch
    have : ch = 'p' ∨ ch = 'a' ∨ ch = 'g' ∨ ch = 'e' := by
      simpa using hch
    rcases this with rfl | rfl | rfl | rfl <;> decide
  · rw [if_neg ht] at hch
    simp only [] at hch
    split at hch
    · exact List.of_mem_filter (List.mem_of_mem_take hch)
    · exact List.of_mem_filter hch

theorem safeTitle_length (t : String) : (safeTitle t).data.length ≤ 50 := by
  unfold safeTitle
  by_cases ht : t = ""
  · rw [if_pos ht]
    decide
  · rw [if_neg ht]
    have hb : (String.mk (t.data.filter keepRune)).data = t.data.filter keepRune := rfl
    simp only []
    split
    · simp
    · rename_i h
      rw [hb]
      omega

/-- C8: a `save_page_to_file` call with `format:"markdown"`, no `filename`
argument, and a successful upstream response carrying a title returns (does
not panic) and writes the page content to a file directly under the fixed
pages directory whose base name is the sanitised title stem, a hyphen, the
Unix timestamp, and the `.md` extension; the stem consists only of kept
runes (ASCII letters, digits, spaces, hyphens) and is at most 50 characters
long. -/
theorem c8_save_markdown_derived_path :
    ∀ (hd g ty rid er c t u : String) (n : Nat) (idv : JVal),
      ∃ base,
        (handleSavePageToFile
          ⟨true, g, true,
            .response ⟨ty, rid, true,
              .obj [("content", .str c), ("title", .str t), ("url", .str u)], er⟩,
            hd, n, true⟩ idv [("format", .str "markdown")]).map (fun r => r.2.2) =
          some (some ⟨pagesDir hd ++ "/" ++ base, c⟩) ∧
        base = safeTitle t ++ "-" ++ toString n ++ ".md" ∧
        (∃ stem, base = stem ++ ".md") ∧
        (∀ ch ∈ (safeTitle t).data, keepRune ch = true) ∧
        (safeTitle t).data.length ≤ 50 := by
  intro hd g ty rid er c t u n idv
  refine ⟨safeTitle t ++ "-" ++ toString n ++ ".md", ?_, rfl,
    ⟨safeTitle t ++ "-" ++ toString n, rfl⟩, safeTitle_chars t, safeTitle_length t⟩
  unfold handleSavePageToFile
  simp [jsonLookup, savePageGenPath, String.append_assoc]
  rfl

theorem c8_save_markdown_derived_path_witness :
    ∃ base,
      (handleSavePageToFile
        ⟨true, "g", true,
          .response ⟨"browser:response", "r", true,
            .obj [("content", .str "BODY"), ("title", .str "My Page"),
              ("url", .str "u")], ""⟩,
          "/Users/u", 5, true⟩ (.num 7) [("format", .str "markdown")]).map
        (fun r => r.2.2) =
        some (some ⟨pagesDir "/Users/u" ++ "/" ++ base, "BODY"⟩) ∧
      base = safeTitle "My Page" ++ "-" ++ toString 5 ++ ".md" ∧
      (∃ stem, base = stem ++ ".md") ∧
      (∀ ch ∈ (safeTitle "My Page").data, keepRune ch = true) ∧
      (safeTitle "My Page").data.length ≤ 50 :=
  c8_save_markdown_derived_path "/Users/u" "g" "browser:response" "r" "" "BODY"
    "My Page" "u" 5 (.num 7)

/-- C9: every response the facade emits — for `initialize`, `tools/list`,
and `tools/call`, result or error alike — carries `jsonrpc = "2.0"` and the
id of the request it answers; and a returning execution produces no output
line exactly for the methods outside those three (the
`notifications/initialized` notification and unknown methods). -/
theorem c9_jsonrpc_envelope :
    ∀ (env : FacadeEnv) (req : JSONRPCRequest),
      (∀ resp, handleRequest env req = some (some resp) →
        resp.jsonrpc = "2.0" ∧ resp.id = req.id) ∧
      (handleRequest env req = some none ↔
        req.method ≠ "initialize" ∧ req.method ≠ "tools/list" ∧
        req.method ≠ "tools/call") := by
  intro env req
  constructor
  · intro resp hresp
    unfold handleRequest at hresp
    by_cases h1 : req.method = "initialize"
    · rw [if_pos h1] at hresp
      obtain rfl := Option.some.inj (Option.some.inj hresp)
      exact ⟨rfl, rfl⟩
    rw [if_neg h1] at hresp
    by_cases h2 : req.method = "notifications/initialized"
    · rw [if_pos h2] at hresp
      exact Option.noConfusion (Option.some.inj hresp)
    rw [if_neg h2] at hresp
    by_cases h3 : req.method = "tools/list"
    · rw [if_pos h3] at hresp
      obtain rfl := Option.some.inj (Option.some.inj hresp)
      exact ⟨rfl, rfl⟩
    rw [if_neg h3] at hresp
    by_cases h4 : req.method = "tools/call"
    · rw [if_pos h4] at hresp
      cases htc : handleToolsCall env req with
      | none =>
          rw [htc] at hresp
          exact Option.noConfusion hresp
      | some r =>
          rw [htc] at hresp
          simp only [Option.map_some'] at hresp
          obtain rfl := Option.some.inj (Option.some.inj hresp)
          exact handleToolsCall_envelope env req r htc
    · rw [if_neg h4] at hresp
      exact Option.noConfusion (Option.some.inj hresp)
  · constructor
    · intro hnone
      unfold handleRequest at hnone
      by_cases h1 : req.method = "initialize"
      · rw [if_pos h1] at hnone
        exact Option.noConfusion (Option.some.inj hnone)
      rw [if_neg h1] at hnone
      by_cases h2 : req.method = "notifications/initialized"
      · refine ⟨h1, ?_, ?_⟩ <;> (rw [h2]; decide)
      rw [if_neg h2] at hnone
      by_cases h3 : req.method = "tools/list"
      · rw [if_pos h3] at hnone
        exact Option.noConfusion (Option.some.inj hnone)
      rw [if_neg h3] at hnone
      by_cases h4 : req.method = "tools/call"
      · rw [if_pos h4] at hnone
        cases htc : handleToolsCall env req with
        | none =>
            rw [htc] at hnone
            exact Option.noConfusion hnone
        | some r =>
            rw [htc] at hnone
            simp only [Option.map_some'] at hnone
            exact Option.noConfusion (Option.some.inj hnone)
      · exact ⟨h1, h3, h4⟩
    · intro ⟨h1, h3, h4⟩
      unfold handleRequest
      rw [if_neg h1]
      by_cases h2 : req.method = "notifications/initialized"
      · rw [if_pos h2]
      · rw [if_neg h2, if_neg h3, if_neg h4]

theorem c9_jsonrpc_envelope_witness :
    ((handleInitialize reqInitialize).jsonrpc = "2.0" ∧
     (handleInitialize reqInitialize).id = reqInitialize.id) ∧
    handleRequest envDisconnected ⟨"2.0", "notifications/initialized", none, .null⟩ =
      some none :=
  ⟨(c9_jsonrpc_envelope envDisconnected reqInitialize).1 (handleInitialize reqInitialize)
    (by rfl),
   (c9_jsonrpc_envelope envDisconnected
      ⟨"2.0", "notifications/initialized", none, .null⟩).2.2
    ⟨by decide, by decide, by decide⟩⟩

theorem handleSavePageToFile_resp_ignores_ids (c w fw : Bool) (g₁ g₂ hd : String)
    (n : Nat) (idv : JVal) (args : List (String × JVal)) (ty rid₁ rid₂ : String)
    (su : Bool) (d : JVal) (er : String) :
    (handleSavePageToFile ⟨c, g₁, w, .response ⟨ty, rid₁, su, d, er⟩, hd, n, fw⟩
      idv args).map (fun r => r.1) =
    (handleSavePageToFile ⟨c, g₂, w, .response ⟨ty, rid₂, su, d, er⟩, hd, n, fw⟩
      idv args).map (fun r => r.1) := by
  unfold handleSavePageToFile
  dsimp only
  repeat' split
  all_goals rfl

/-- C10: the JSON-RPC result of a forwarded `tools/call` is computed from
the decoded content of the single line read from the socket after writing
the request, never from the `requestId` it carries — switching the
response's `requestId` (and the freshly generated uuid, which is written
into the outgoing envelope but never compared) cannot change the result;
and the outgoing envelope does carry the generated id and the mapped
action. -/
theorem c10_first_line_resolves_call :
    (∀ (c w fw : Bool) (g₁ g₂ hd : String) (n : Nat) (req : JSONRPCRequest)
       (ty rid₁ rid₂ : String) (su : Bool) (d : JVal) (er : String),
      (handleToolsCall ⟨c, g₁, w, .response ⟨ty, rid₁, su, d, er⟩, hd, n, fw⟩ req).map
        (fun r => r.1) =
      (handleToolsCall ⟨c, g₂, w, .response ⟨ty, rid₂, su, d, er⟩, hd, n, fw⟩ req).map
        (fun r => r.1)) ∧
    (∀ (env : FacadeEnv) (req : JSONRPCRequest) (p : ToolCallParams) (action : String),
      parseToolsCallParams req.params = some p →
      p.name ≠ "save_page_to_file" →
      actionMap p.name = some action →
      env.connected = true → env.writeOk = true →
      ∃ r, handleToolsCall env req = some r ∧
        r.2 = some ⟨"browser:request", env.genId, action, .obj p.arguments⟩) := by
  constructor
  · intro c w fw g₁ g₂ hd n req ty rid₁ rid₂ su d er
    unfold handleToolsCall
    cases hp : parseToolsCallParams req.params with
    | none => rfl
    | some p =>
      dsimp only
      by_cases hs : p.name = "save_page_to_file"
      · simp only [if_pos hs, Option.map_map]
        exact handleSavePageToFile_resp_ignores_ids c w fw g₁ g₂ hd n req.id
          p.arguments ty rid₁ rid₂ su d er
      · simp only [if_neg hs]
        cases ha : actionMap p.name with
        | none => rfl
        | some action =>
          dsimp only
          repeat' split
          all_goals rfl
  · intro env req p action hp hns ha hc hw
    unfold handleToolsCall
    rw [hp]
    simp only [if_neg hns, ha, hc, hw, Bool.true_eq_false, if_false]
    cases henv : env.sockRead with
    | readError => exact ⟨_, rfl, rfl⟩
    | parseError => exact ⟨_, rfl, rfl⟩
    | response sr =>
      dsimp only
      split
      all_goals exact ⟨_, rfl, rfl⟩

theorem c10_first_line_resolves_call_witness :
    ∃ r, handleToolsCall envConnected reqGetUrl = some r ∧
      r.2 = some ⟨"browser:request", "uuid-9", "getUrl", .obj []⟩ :=
  c10_first_line_resolves_call.2 envConnected reqGetUrl ⟨"get_browser_url", []⟩
    "getUrl" (by rfl) (by decide) (by rfl) (by rfl) (by rfl)
